import Mathlib

/-!
Shallow embedding of the two inference engines of this repository:
`src/app.py` (metric extraction from financial-statement text) and
`src/bank_statement_analyzer.py` (transaction categorization and aggregation).

Encoding note: the checked-in copy of `app.py` stores the original UTF-8 text
re-encoded through Mac-Roman; decoding that transcoding recovers the original
program text, whose currency symbols are the plain `$`, `€`, `£`, `₹` used below
(the same symbols the module docstrings and the spec refer to).

Modelling conventions:
* Python strings are Lean `String`s / `List Char`; `str.lower`/`\s`/`\w` are
  specialised to the ASCII-plus-currency-symbol repertoire the program handles.
* Python `float` values are modelled as exact rationals `ℚ`; every numeric
  literal in the checked properties is exactly representable.
* The regular expressions `AMOUNT_PATTERN`, `YEAR_PATTERN` and the alias
  patterns are deterministic (no backtracking is ever needed), and are
  translated into direct scanning functions with Python `re` semantics
  (leftmost match, greedy, `findall` resumes after each match).
* File/PDF/spreadsheet I/O, pandas and the UI are external collaborators; the
  embedding covers the per-line extraction core and the in-memory table logic.
-/

deriving instance DecidableEq for Except

namespace Starter

/-- Python `\s` (ASCII whitespace as used by the program's inputs). -/
def isPySpace (c : Char) : Bool :=
  c == ' ' || c == '\t' || c == '\n' || c == '\r' || c == '\x0b' || c == '\x0c'

/-- Python `\w` (word character) for the ASCII repertoire. -/
def isWordChar (c : Char) : Bool := c.isAlphanum || c == '_'

/-- `str.lower()` on the character repertoire the program handles. -/
def lowerStr (s : List Char) : List Char := s.map Char.toLower

/-- Does `pat` occur as the initial segment of `cs`? -/
def startsWithL : List Char → List Char → Bool
  | [], _ => true
  | _ :: _, [] => false
  | p :: ps, c :: cs => p == c && startsWithL ps cs

/-- Python `sub in s`: does `pat` occur as a contiguous run inside `cs`? -/
def containsL (pat : List Char) : List Char → Bool
  | [] => startsWithL pat []
  | c :: cs => startsWithL pat (c :: cs) || containsL pat cs

/-- Remove every occurrence of the characters in `bad` (`str.replace(ch, "")`). -/
def removeChars (bad : List Char) (s : List Char) : List Char :=
  s.filter (fun c => !(bad.contains c))

/-- Strip characters satisfying `p` from both ends (`str.strip` family). -/
def stripWhile (p : Char → Bool) (s : List Char) : List Char :=
  (((s.dropWhile p).reverse).dropWhile p).reverse

/-- Python `str.strip()` on a `String`. -/
def pyStrip (s : String) : String := String.mk (stripWhile isPySpace s.data)

def digitVal (c : Char) : ℕ := c.toNat - 48

def digitsToNat (ds : List Char) : ℕ := ds.foldl (fun n c => 10 * n + digitVal c) 0

/-- Python `float()` restricted to the decimal literals the program feeds it:
optional surrounding whitespace, optional sign, digits with an optional
fractional part (at least one digit overall). -/
def parsePyFloat (s : List Char) : Option ℚ :=
  let t := stripWhile isPySpace s
  let sign : ℤ := match t with | '-' :: _ => -1 | _ => 1
  let t1 : List Char := match t with | '-' :: r => r | '+' :: r => r | r => r
  let intPart := t1.takeWhile Char.isDigit
  let rest := t1.dropWhile Char.isDigit
  match rest with
  | [] => if intPart.isEmpty then none else some (mkRat (sign * digitsToNat intPart) 1)
  | '.' :: r2 =>
    let fracPart := r2.takeWhile Char.isDigit
    if (r2.dropWhile Char.isDigit).isEmpty && !(intPart.isEmpty && fracPart.isEmpty) then
      some (mkRat (sign * (digitsToNat intPart * 10 ^ fracPart.length + digitsToNat fracPart))
        (10 ^ fracPart.length))
    else none
  | _ => none

/-- `normalize_amount` (src/app.py:42-55): strip separators and currency
symbols, treat a `(...)`-wrapped token as negative.  The `try/except` around
`float` in the caller is modelled by the `Option`. -/
def normalize_amount (raw : String) : Option ℚ :=
  let txt := stripWhile isPySpace (removeChars [',', '$', '€', '£', '₹'] raw.data)
  let negative := startsWithL ['('] txt && startsWithL [')'] txt.reverse
  let txt2 := stripWhile (fun c => c == '(' || c == ')') txt
  match parsePyFloat txt2 with
  | none => none
  | some value => some (if negative then -value else value)

/-- The INR test of `detect_currency` (src/app.py:60):
`"inr" in lower or "rs." in lower or "rs " in lower or "rupee" in lower or "₹" in text`. -/
def inr_indicator (text : String) : Bool :=
  containsL "inr".data (lowerStr text.data) || containsL "rs.".data (lowerStr text.data)
    || containsL "rs ".data (lowerStr text.data) || containsL "rupee".data (lowerStr text.data)
    || containsL "₹".data text.data

/-- The USD test of `detect_currency` (src/app.py:62): `"usd" in lower or "$" in text`. -/
def usd_indicator (text : String) : Bool :=
  containsL "usd".data (lowerStr text.data) || containsL "$".data text.data

/-- The EUR test of `detect_currency` (src/app.py:64): `"eur" in lower or "€" in text`. -/
def eur_indicator (text : String) : Bool :=
  containsL "eur".data (lowerStr text.data) || containsL "€".data text.data

/-- The GBP test of `detect_currency` (src/app.py:66): `"gbp" in lower or "£" in text`. -/
def gbp_indicator (text : String) : Bool :=
  containsL "gbp".data (lowerStr text.data) || containsL "£".data text.data

/-- `detect_currency` (src/app.py:58-68): the four tests in source order. -/
def detect_currency (text : String) : String :=
  if inr_indicator text then "INR"
  else if usd_indicator text then "USD"
  else if eur_indicator text then "EUR"
  else if gbp_indicator text then "GBP"
  else "Unknown"

/-- The character class `[$€£₹]` of `AMOUNT_PATTERN`. -/
def isCurrencySymbol (c : Char) : Bool := c == '$' || c == '€' || c == '£' || c == '₹'

/-- Consume at most one character satisfying `p` (a greedy `x?` regex piece). -/
def optTake (p : Char → Bool) : List Char → List Char × List Char
  | [] => ([], [])
  | c :: cs => if p c then ([c], cs) else ([], c :: cs)

def isDigitOrComma (c : Char) : Bool := c.isDigit || c == ','

/-- The `(?:\.\d+)?` piece: a dot is consumed only when at least one digit
follows it. -/
def decimalTake : List Char → List Char × List Char
  | '.' :: cs =>
    let ds := cs.takeWhile Char.isDigit
    if ds.isEmpty then ([], '.' :: cs) else ('.' :: ds, cs.dropWhile Char.isDigit)
  | cs => ([], cs)

/-- One anchored match attempt of
`AMOUNT_PATTERN = \(?[-+]?[$€£₹]?\s?\d[\d,]*(?:\.\d+)?\)?` (src/app.py:39)
at the head of `cs`; returns the matched characters.  Every piece of the
pattern draws from a character set disjoint from its successor's first set,
so greedy matching without backtracking coincides with `re` semantics. -/
def amountMatchAt (cs : List Char) : Option (List Char) :=
  let t1 := optTake (fun c => c == '(') cs
  let t2 := optTake (fun c => c == '-' || c == '+') t1.2
  let t3 := optTake isCurrencySymbol t2.2
  let t4 := optTake isPySpace t3.2
  match t4.2 with
  | [] => none
  | c :: r5 =>
    if c.isDigit then
      let m6 := r5.takeWhile isDigitOrComma
      let t7 := decimalTake (r5.dropWhile isDigitOrComma)
      let m8 := (optTake (fun d => d == ')') t7.2).1
      some (t1.1 ++ t2.1 ++ t3.1 ++ t4.1 ++ c :: (m6 ++ t7.1 ++ m8))
    else none

/-- `AMOUNT_PATTERN.findall`: scan left to right; after a match of length `n`,
resume `n` characters further on (the first argument counts characters still
inside the previous match). -/
def amountFindall : ℕ → List Char → List (List Char)
  | _ + 1, [] => []
  | k + 1, _ :: cs => amountFindall k cs
  | 0, [] => []
  | 0, c :: cs =>
    match amountMatchAt (c :: cs) with
    | some m => m :: amountFindall (m.length - 1) cs
    | none => amountFindall 0 cs

/-- `YEAR_PATTERN.findall` (src/app.py:38): `\b(19\d{2}|20\d{2})\b`,
non-overlapping, resuming after each match; `prev` is the character preceding
the current scan position (for the word boundary). -/
def yearScan (prev : Option Char) : List Char → List ℕ
  | d1 :: d2 :: d3 :: d4 :: cs =>
    if ((d1 == '1' && d2 == '9') || (d1 == '2' && d2 == '0')) && d3.isDigit && d4.isDigit
        && (match prev with | none => true | some q => !isWordChar q)
        && (match cs with | [] => true | e :: _ => !isWordChar e) then
      (1000 * digitVal d1 + 100 * digitVal d2 + 10 * digitVal d3 + digitVal d4)
        :: yearScan (some d4) cs
    else
      yearScan (some d1) (d2 :: d3 :: d4 :: cs)
  | c :: cs => yearScan (some c) cs
  | [] => []

/-- `extract_years` (src/app.py:71-72). -/
def extract_years (text : String) : List ℕ := yearScan none text.data

/-- `assign_years_to_amounts` (src/app.py:75-93). -/
def assign_years_to_amounts (years : List ℕ) (amount_count : ℕ) : List (Option ℕ) :=
  if amount_count = 0 then []
  else
    match years with
    | [] => List.replicate amount_count none
    | y :: ys =>
      if (y :: ys).length = amount_count then (y :: ys).map some
      else if (y :: ys).length = 1 then List.replicate amount_count (some y)
      else if amount_count < (y :: ys).length then
        ((y :: ys).drop ((y :: ys).length - amount_count)).map some
      else List.replicate amount_count (some (ys.getLastD y))

/-- A metric alias regular expression (src/app.py:26-36).  Every alias is
either a sequence of literal lowercase words joined by `\s+` (a single word
being a plain substring search) or a single word wrapped in `\b` boundaries
(the `\beps\b` alias). -/
inductive AliasPat where
  | seq : List String → AliasPat
  | bword : String → AliasPat

/-- Anchored match of a `\s+`-joined word sequence at the head of `cs`. -/
def matchSeqFrom : List (List Char) → List Char → Bool
  | [], _ => true
  | [w], cs => startsWithL w cs
  | w :: w2 :: ws, cs =>
    startsWithL w cs &&
      (let rest := cs.drop w.length
       !(rest.takeWhile isPySpace).isEmpty && matchSeqFrom (w2 :: ws) (rest.dropWhile isPySpace))

/-- `re.search` of a `\s+`-joined word sequence: try every start position. -/
def searchSeq (ws : List (List Char)) : List Char → Bool
  | [] => matchSeqFrom ws []
  | c :: cs => matchSeqFrom ws (c :: cs) || searchSeq ws cs

/-- `re.search` of `\b w \b`; `prev` is the character before the scan point. -/
def searchBWord (w : List Char) : Option Char → List Char → Bool
  | _, [] => false
  | prev, c :: cs =>
    ((match prev with | none => true | some q => !isWordChar q)
        && startsWithL w (c :: cs)
        && (match (c :: cs).drop w.length with | [] => true | e :: _ => !isWordChar e))
      || searchBWord w (some c) cs

def matchAlias (lowerLine : List Char) : AliasPat → Bool
  | .seq ws => searchSeq (ws.map String.data) lowerLine
  | .bword w => searchBWord w.data none lowerLine

/-- `FINANCIAL_PATTERNS` (src/app.py:26-36), in the dict's insertion order. -/
def FINANCIAL_PATTERNS : List (String × List AliasPat) :=
  [("Revenue", [.seq ["revenue"], .seq ["total", "income"], .seq ["turnover"], .seq ["sales"],
      .seq ["income", "from", "operations"]]),
   ("Gross Profit", [.seq ["gross", "profit"]]),
   ("Operating Income", [.seq ["operating", "income"], .seq ["operating", "profit"],
      .seq ["ebit"]]),
   ("EBITDA", [.seq ["ebitda"]]),
   ("Net Income", [.seq ["net", "income"], .seq ["net", "profit"],
      .seq ["profit", "after", "tax"], .seq ["pat"]]),
   ("Total Assets", [.seq ["total", "assets"]]),
   ("Total Liabilities", [.seq ["total", "liabilities"]]),
   ("Cash Flow", [.seq ["cash", "flow"],
      .seq ["net", "cash", "from", "operating", "activities"]]),
   ("EPS", [.seq ["earnings", "per", "share"], .bword "eps"])]

/-- `FinancialMetric` (src/app.py:15-23): one extracted fact. -/
structure FinancialMetric where
  metric : String
  value : ℚ
  currency : String
  year : Option ℕ
  context : String
  source_file : String
  page : ℕ
deriving DecidableEq, Repr

/-- The amount-token list of one line (src/app.py:107):
`[a.replace(" ", "") for a in AMOUNT_PATTERN.findall(line) if re.search(r"\d", a)]`. -/
def lineAmountTokens (line : String) : List String :=
  ((amountFindall 0 line.data).filter (fun a => a.any Char.isDigit)).map
    (fun a => String.mk (a.filter (fun c => !(c == ' '))))

/-- The `for idx, amount in enumerate(amounts)` loop of
`extract_financial_metrics` (src/app.py:111-127): tokens whose numeric parse
fails are skipped, the others become facts. -/
def buildFacts (metric_name line source_file : String) (page : ℕ)
    (mapped_years : List (Option ℕ)) : ℕ → List String → List FinancialMetric
  | _, [] => []
  | idx, amount :: rest =>
    match normalize_amount amount with
    | none => buildFacts metric_name line source_file page mapped_years (idx + 1) rest
    | some value =>
      { metric := metric_name, value := value, currency := detect_currency line,
        year := (mapped_years.get? idx).getD none, context := line,
        source_file := source_file, page := page }
        :: buildFacts metric_name line source_file page mapped_years (idx + 1) rest

/-- The per-line body of `extract_financial_metrics` (src/app.py:103-127).
Reading the PDF and splitting pages into non-empty trimmed lines is the I/O
boundary; this is the engine applied to one such line. -/
def extract_financial_metrics_line (source_file : String) (page : ℕ)
    (line : String) : List FinancialMetric :=
  let normalized_line := lowerStr line.data
  FINANCIAL_PATTERNS.flatMap (fun mp =>
    if mp.2.any (matchAlias normalized_line) then
      let amounts := lineAmountTokens line
      buildFacts mp.1 line source_file page
        (assign_years_to_amounts (extract_years line) amounts.length) 0 amounts
    else [])

/-! ## Embedding of `src/bank_statement_analyzer.py` -/

/-- `DEFAULT_COLUMN_ALIASES` (src/bank_statement_analyzer.py:33-45), one
definition per logical field. -/
def DEFAULT_COLUMN_ALIASES_date : List String :=
  ["date", "txn date", "transaction date", "posted date"]

def DEFAULT_COLUMN_ALIASES_description : List String :=
  ["description", "narration", "transaction details", "merchant", "remarks"]

def DEFAULT_COLUMN_ALIASES_amount : List String :=
  ["amount", "debit", "withdrawal", "transaction amount", "value"]

def DEFAULT_COLUMN_ALIASES_credit : List String := ["credit", "deposit"]

def DEFAULT_COLUMN_ALIASES_debit : List String := ["debit", "withdrawal"]

/-- `str(column).strip().lower()` as used for header comparison. -/
def normHeader (s : String) : String := String.mk (lowerStr (stripWhile isPySpace s.data))

/-- `_find_column` (src/bank_statement_analyzer.py:136-141): the first column
whose normalised header is one of the aliases.  The source returns the column
name and selects `df[name]`; we return the index of that first column. -/
def find_column (columns : List String) (aliases : List String) : Option ℕ :=
  columns.findIdx? (fun c => (aliases.map normHeader).contains (normHeader c))

/-- One spreadsheet cell, already tagged with the type pandas would infer for
it.  `to_datetime`/`to_numeric` with `errors="coerce"` become `Option`s. -/
inductive Cell where
  | num : ℚ → Cell
  | str : String → Cell
  | date : ℤ → Cell
  | empty : Cell
deriving DecidableEq, Repr

/-- `pd.to_datetime(_, errors="coerce")` on one cell; calendar dates are
modelled as integers (only their ordering matters to the program). -/
def cellToDate : Cell → Option ℤ
  | .date d => some d
  | _ => none

/-- `pd.to_numeric(_, errors="coerce")` on one cell. -/
def cellToNum : Cell → Option ℚ
  | .num q => some q
  | .str s => parsePyFloat s.data
  | _ => none

/-- `.astype(str)` on one cell (pandas renders missing values as `"nan"`). -/
def cellToStr : Cell → String
  | .str s => s
  | .num q => toString q
  | .date d => toString d
  | .empty => "nan"

/-- `NormalizedTransaction` (spec §3): one row after column reconciliation. -/
structure NormalizedTransaction where
  date : ℤ
  description : String
  amount : ℚ
deriving DecidableEq, Repr

/-- Row assembly and `dropna(subset=["Date", "Description", "Amount"])`
(src/bank_statement_analyzer.py:160-176): description never drops because
`astype(str)` stringifies missing values. -/
def buildRows (di si : ℕ) (amountOf : List Cell → Option ℚ)
    (rows : List (List Cell)) : List NormalizedTransaction :=
  rows.filterMap (fun r =>
    match cellToDate (r.getD di Cell.empty), amountOf r with
    | some d, some a => some ⟨d, pyStrip (cellToStr (r.getD si Cell.empty)), a⟩
    | _, _ => none)

/-- `normalize_columns` (src/bank_statement_analyzer.py:144-178).  The input
table is a header list plus rows of cells; `ValueError` becomes
`Except.error`. -/
def normalize_columns (columns : List String) (rows : List (List Cell)) :
    Except String (List NormalizedTransaction) :=
  let date_col := find_column columns DEFAULT_COLUMN_ALIASES_date
  let description_col := find_column columns DEFAULT_COLUMN_ALIASES_description
  let amount_col := find_column columns DEFAULT_COLUMN_ALIASES_amount
  let credit_col := find_column columns DEFAULT_COLUMN_ALIASES_credit
  let debit_col := find_column columns DEFAULT_COLUMN_ALIASES_debit
  match date_col, description_col with
  | none, _ => Except.error "Input file must contain date and description columns. Accepted names include Date/Transaction Date and Description/Narration."
  | some _, none => Except.error "Input file must contain date and description columns. Accepted names include Date/Transaction Date and Description/Narration."
  | some di, some si =>
    match amount_col with
    | some ai => Except.ok (buildRows di si (fun r => cellToNum (r.getD ai Cell.empty)) rows)
    | none =>
      match credit_col, debit_col with
      | some ci, some bi =>
        Except.ok (buildRows di si (fun r =>
          some ((cellToNum (r.getD ci Cell.empty)).getD 0
            - (cellToNum (r.getD bi Cell.empty)).getD 0)) rows)
      | _, _ =>
        Except.error "Input file must have either an Amount column or both Credit and Debit columns."

/-- `normalize_columns` with the `credit - debit` synthesis branch removed
(the `elif credit_col and debit_col` arm replaced by the fall-through error).
Used to state that the synthesis branch is unreachable. -/
def normalize_columns_synth_disabled (columns : List String) (rows : List (List Cell)) :
    Except String (List NormalizedTransaction) :=
  let date_col := find_column columns DEFAULT_COLUMN_ALIASES_date
  let description_col := find_column columns DEFAULT_COLUMN_ALIASES_description
  let amount_col := find_column columns DEFAULT_COLUMN_ALIASES_amount
  match date_col, description_col with
  | none, _ => Except.error "Input file must contain date and description columns. Accepted names include Date/Transaction Date and Description/Narration."
  | some _, none => Except.error "Input file must contain date and description columns. Accepted names include Date/Transaction Date and Description/Narration."
  | some di, some si =>
    match amount_col with
    | some ai => Except.ok (buildRows di si (fun r => cellToNum (r.getD ai Cell.empty)) rows)
    | none =>
      Except.error "Input file must have either an Amount column or both Credit and Debit columns."

/-- One transaction pattern (src/bank_statement_analyzer.py:55-121): all rule
patterns are case-insensitive literal substrings except `whole ?foods`
(an optional single space). -/
inductive TxnPat where
  | lit : String → TxnPat
  | optsp : String → String → TxnPat

/-- `pattern.search(description)` for one compiled `re.IGNORECASE` pattern. -/
def txnPatMatch (description : List Char) : TxnPat → Bool
  | .lit s => containsL s.data (lowerStr description)
  | .optsp a b =>
    containsL (a.data ++ b.data) (lowerStr description)
      || containsL (a.data ++ ' ' :: b.data) (lowerStr description)

/-- `CategoryRule` (src/bank_statement_analyzer.py:48-52). -/
structure CategoryRule where
  category : String
  necessity : String
  patterns : List TxnPat

/-- `CATEGORY_RULES` (src/bank_statement_analyzer.py:55-121), in order. -/
def CATEGORY_RULES : List CategoryRule :=
  [⟨"Rent / Housing", "Necessity", [.lit "rent", .lit "landlord", .lit "mortgage"]⟩,
   ⟨"Groceries", "Necessity",
     [.lit "grocery", .lit "supermarket", .lit "mart", .optsp "whole" "foods", .lit "aldi",
      .lit "walmart"]⟩,
   ⟨"Utilities", "Necessity",
     [.lit "electric", .lit "water", .lit "gas bill", .lit "internet", .lit "broadband",
      .lit "utility"]⟩,
   ⟨"Transport", "Necessity",
     [.lit "fuel", .lit "petrol", .lit "diesel", .lit "uber", .lit "lyft", .lit "metro",
      .lit "bus", .lit "train"]⟩,
   ⟨"Healthcare", "Necessity", [.lit "hospital", .lit "pharmacy", .lit "doctor", .lit "clinic"]⟩,
   ⟨"Education", "Necessity",
     [.lit "tuition", .lit "school", .lit "course", .lit "udemy", .lit "coursera"]⟩,
   ⟨"Dining / Food Delivery", "Non-necessity",
     [.lit "restaurant", .lit "cafe", .lit "zomato", .lit "swiggy", .lit "doordash",
      .lit "ubereats"]⟩,
   ⟨"Shopping", "Non-necessity", [.lit "amazon", .lit "flipkart", .lit "shopping", .lit "store"]⟩,
   ⟨"Entertainment", "Non-necessity",
     [.lit "netflix", .lit "spotify", .lit "prime", .lit "movie", .lit "cinema", .lit "game"]⟩,
   ⟨"Travel", "Non-necessity",
     [.lit "airlines", .lit "hotel", .lit "booking", .lit "trip", .lit "vacation"]⟩]

/-- Does any pattern of `rule` match the description? -/
def ruleMatches (rule : CategoryRule) (description : String) : Bool :=
  rule.patterns.any (txnPatMatch description.data)

/-- `categorize` (src/bank_statement_analyzer.py:181-185). -/
def categorize (description : String) : String × String :=
  match CATEGORY_RULES.find? (fun rule => ruleMatches rule description) with
  | some rule => (rule.category, rule.necessity)
  | none => ("Other", "Non-necessity")

/-- One row of the detailed report: a normalized transaction plus its
`Category` and `Necessity` columns. -/
structure CategorizedTransaction where
  date : ℤ
  description : String
  amount : ℚ
  category : String
  necessity : String
deriving DecidableEq, Repr

/-- Ascending-date order used by `sort_values("Date")`. -/
def byDate (a b : NormalizedTransaction) : Prop := a.date ≤ b.date

instance : DecidableRel byDate := fun a b => (inferInstance : Decidable (a.date ≤ b.date))

instance : IsTotal NormalizedTransaction byDate := ⟨fun a b => Int.le_total a.date b.date⟩

instance : IsTrans NormalizedTransaction byDate := ⟨fun _ _ _ => Int.le_trans⟩

/-- Descending-total-spend order used by `sort_values("Spend", ascending=False)`. -/
def bySpendDesc {K : Type} (a b : K × ℚ) : Prop := b.2 ≤ a.2

instance {K : Type} : DecidableRel (bySpendDesc (K := K)) :=
  fun a b => (inferInstance : Decidable (b.2 ≤ a.2))

instance {K : Type} : IsTotal (K × ℚ) bySpendDesc := ⟨fun a b => le_total b.2 a.2⟩

instance {K : Type} : IsTrans (K × ℚ) bySpendDesc :=
  ⟨fun _ _ _ h h' => le_trans h' h⟩

/-- `sorted_df` with the `Category`/`Necessity` columns added
(src/bank_statement_analyzer.py:189-193).  pandas' unstable quicksort is
modelled by a stable sort; the program's contract constrains only the
date ordering. -/
def detailed_transactions (df : List NormalizedTransaction) : List CategorizedTransaction :=
  (List.insertionSort byDate df).map (fun t =>
    ⟨t.date, t.description, t.amount, (categorize t.description).1, (categorize t.description).2⟩)

/-- `expenses` (src/bank_statement_analyzer.py:195): rows with negative amount. -/
def statement_expenses (df : List NormalizedTransaction) : List CategorizedTransaction :=
  (detailed_transactions df).filter (fun t => decide (t.amount < 0))

/-- `groupby(...)["Spend"].sum()` over `expenses` with `Spend = |Amount|`:
one `(key, total)` entry per distinct key.  pandas enumerates group keys in
sorted order; since both summaries are re-sorted by total spend afterwards
and no tie order is promised, the enumeration order of the distinct keys is
immaterial here. -/
def group_spend {K : Type} [DecidableEq K] (key : CategorizedTransaction → K)
    (expenses : List CategorizedTransaction) : List (K × ℚ) :=
  ((expenses.map key).dedup).map (fun k =>
    (k, ((expenses.filter (fun t => decide (key t = k))).map (fun t => |t.amount|)).sum))

/-- `summary_by_category` (src/bank_statement_analyzer.py:198-200). -/
def summary_by_category (df : List NormalizedTransaction) : List ((String × String) × ℚ) :=
  List.insertionSort bySpendDesc
    (group_spend (fun t => (t.category, t.necessity)) (statement_expenses df))

/-- `summary_by_need` (src/bank_statement_analyzer.py:202-204). -/
def summary_by_need (df : List NormalizedTransaction) : List (String × ℚ) :=
  List.insertionSort bySpendDesc (group_spend (fun t => t.necessity) (statement_expenses df))

/-- `analyze_statement` (src/bank_statement_analyzer.py:188-206). -/
def analyze_statement (df : List NormalizedTransaction) :
    List CategorizedTransaction × List ((String × String) × ℚ) × List (String × ℚ) :=
  (detailed_transactions df, summary_by_category df, summary_by_need df)

/-- Result of the program succeeding (no `ValueError`). -/
def isOkResult : Except String (List NormalizedTransaction) → Bool
  | .ok _ => true
  | .error _ => false

/-! ## Supporting lemmas -/

lemma optTake_append (p : Char → Bool) (cs : List Char) :
    (optTake p cs).1 ++ (optTake p cs).2 = cs := by
  cases cs with
  | nil => rfl
  | cons c cs => simp only [optTake]; split <;> simp

lemma optTake_snd_mem (p : Char → Bool) (cs : List Char) :
    ∀ a ∈ (optTake p cs).2, a ∈ cs := by
  cases cs with
  | nil => intro a ha; simp [optTake] at ha
  | cons c cs =>
    intro a ha
    by_cases h : p c
    · simp only [optTake, if_pos h] at ha
      exact List.mem_cons_of_mem _ ha
    · simpa [optTake, h] using ha

lemma decimalTake_append (cs : List Char) :
    (decimalTake cs).1 ++ (decimalTake cs).2 = cs := by
  unfold decimalTake
  split
  · dsimp only
    split
    · simp
    · simp
  · rfl

lemma amountMatchAt_spec {cs m : List Char} (h : amountMatchAt cs = some m) :
    m ≠ [] ∧ ∃ r, cs = m ++ r := by
  unfold amountMatchAt at h
  dsimp only at h
  split at h
  · exact absurd h (by simp)
  · next c r5 heq =>
    split at h
    · next hdig =>
      rw [Option.some.injEq] at h
      subst h
      set a1 := optTake (fun c => c == '(') cs with ha1
      set a2 := optTake (fun c => c == '-' || c == '+') a1.2 with ha2
      set a3 := optTake isCurrencySymbol a2.2 with ha3
      set a4 := optTake isPySpace a3.2 with ha4
      set t7 := decimalTake (r5.dropWhile isDigitOrComma) with ht7
      set a8 := optTake (fun d => d == ')') t7.2 with ha8
      refine ⟨by simp, a8.2, ?_⟩
      have e1 : a1.1 ++ a1.2 = cs := by rw [ha1]; exact optTake_append _ _
      have e2 : a2.1 ++ a2.2 = a1.2 := by rw [ha2]; exact optTake_append _ _
      have e3 : a3.1 ++ a3.2 = a2.2 := by rw [ha3]; exact optTake_append _ _
      have e4 : a4.1 ++ a4.2 = a3.2 := by rw [ha4]; exact optTake_append _ _
      have e5 : r5.takeWhile isDigitOrComma ++ r5.dropWhile isDigitOrComma = r5 :=
        List.takeWhile_append_dropWhile isDigitOrComma r5
      have e6 : t7.1 ++ t7.2 = r5.dropWhile isDigitOrComma := by
        rw [ht7]; exact decimalTake_append _
      have e7 : a8.1 ++ a8.2 = t7.2 := by rw [ha8]; exact optTake_append _ _
      simp only [List.append_assoc, List.cons_append]
      rw [e7, e6, e5, ← heq, e4, e3, e2, e1]
    · exact absurd h (by simp)

lemma amountMatchAt_none {cs : List Char} (hnd : ∀ c ∈ cs, c.isDigit = false) :
    amountMatchAt cs = none := by
  unfold amountMatchAt
  dsimp only
  split
  · rfl
  · next c r5 heq =>
    have hc : c ∈ cs := by
      have h1 : c ∈ (optTake isPySpace
          (optTake isCurrencySymbol
            (optTake (fun c => c == '-' || c == '+')
              (optTake (fun c => c == '(') cs).2).2).2).2 := by
        rw [heq]; exact List.mem_cons_self _ _
      exact optTake_snd_mem _ _ _ (optTake_snd_mem _ _ _ (optTake_snd_mem _ _ _
        (optTake_snd_mem _ _ _ h1)))
    rw [if_neg]
    simp [hnd c hc]

lemma amountFindall_infix :
    ∀ (cs : List Char) (k : ℕ) (t : List Char),
      t ∈ amountFindall k cs → ∃ pre post, cs = pre ++ t ++ post := by
  intro cs
  induction cs with
  | nil => intro k t ht; cases k <;> simp [amountFindall] at ht
  | cons c cs ih =>
    intro k t ht
    cases k with
    | succ k =>
      rw [amountFindall] at ht
      obtain ⟨pre, post, rfl⟩ := ih k t ht
      exact ⟨c :: pre, post, rfl⟩
    | zero =>
      rw [amountFindall] at ht
      cases hA : amountMatchAt (c :: cs) with
      | none =>
        rw [hA] at ht
        obtain ⟨pre, post, rfl⟩ := ih 0 t ht
        exact ⟨c :: pre, post, rfl⟩
      | some m =>
        rw [hA] at ht
        rcases List.mem_cons.mp ht with rfl | ht'
        · obtain ⟨-, r, hr⟩ := amountMatchAt_spec hA
          exact ⟨[], r, by simpa using hr⟩
        · obtain ⟨pre, post, rfl⟩ := ih _ t ht'
          exact ⟨c :: pre, post, rfl⟩

lemma mem_buildFacts {mp line s : String} {p : ℕ} {mys : List (Option ℕ)} :
    ∀ (idx : ℕ) (amounts : List String) (f : FinancialMetric),
      f ∈ buildFacts mp line s p mys idx amounts →
      f.context = line ∧ f.metric = mp ∧
        ∃ a ∈ amounts, normalize_amount a = some f.value := by
  intro idx amounts
  induction amounts generalizing idx with
  | nil => intro f hf; simp [buildFacts] at hf
  | cons a rest ih =>
    intro f hf
    rw [buildFacts] at hf
    cases hna : normalize_amount a with
    | none =>
      rw [hna] at hf
      obtain ⟨h1, h2, a', ha', hv⟩ := ih (idx + 1) f hf
      exact ⟨h1, h2, a', List.mem_cons_of_mem _ ha', hv⟩
    | some v =>
      rw [hna] at hf
      rcases List.mem_cons.mp hf with rfl | hf'
      · exact ⟨rfl, rfl, a, List.mem_cons_self _ _, hna⟩
      · obtain ⟨h1, h2, a', ha', hv⟩ := ih (idx + 1) f hf'
        exact ⟨h1, h2, a', List.mem_cons_of_mem _ ha', hv⟩

lemma mem_extract_line {s : String} {p : ℕ} {line : String} {f : FinancialMetric}
    (hf : f ∈ extract_financial_metrics_line s p line) :
    f.context = line ∧ ∃ t, t ∈ amountFindall 0 line.data ∧ t.any Char.isDigit = true ∧
      normalize_amount (String.mk (t.filter (fun c => !(c == ' ')))) = some f.value := by
  unfold extract_financial_metrics_line at hf
  rw [List.mem_flatMap] at hf
  obtain ⟨mp, hmp, hf⟩ := hf
  by_cases hmatch : mp.2.any (matchAlias (lowerStr line.data))
  · rw [if_pos hmatch] at hf
    obtain ⟨hctx, -, a, ha, hval⟩ := mem_buildFacts _ _ _ hf
    unfold lineAmountTokens at ha
    simp only [List.mem_map, List.mem_filter] at ha
    obtain ⟨t, ⟨htf, htd⟩, rfl⟩ := ha
    exact ⟨hctx, t, htf, htd, hval⟩
  · rw [if_neg hmatch] at hf
    simp at hf

lemma getLast?_cons_eq {α : Type} (y : α) (ys : List α) :
    (y :: ys).getLast? = some (ys.getLastD y) := by
  induction ys generalizing y with
  | nil => rfl
  | cons z zs ih => rw [List.getLast?_cons_cons, ih, List.getLastD_cons]

lemma find?_take_all_neg {α : Type} (p : α → Bool) :
    ∀ (l : List α) (i : ℕ) (h : i < l.length),
      p (l.get ⟨i, h⟩) = true →
      (l.take i).all (fun a => !p a) = true →
      l.find? p = some (l.get ⟨i, h⟩) := by
  intro l
  induction l with
  | nil => intro i h _ _; exact absurd h (Nat.not_lt_zero i)
  | cons a l ih =>
    intro i h hp hall
    cases i with
    | zero => exact List.find?_cons_of_pos _ hp
    | succ i =>
      rw [List.take_succ_cons, List.all_cons, Bool.and_eq_true] at hall
      have ha : p a = false := by
        have := hall.1
        simpa using this
      rw [List.find?_cons_of_neg _ (by simp [ha])]
      exact ih i (Nat.lt_of_succ_lt_succ h) hp hall.2

/-! ## Claim theorems -/

/-- **C1, counterexample.**  On the line
`"Net Income 2021 2022 1,000 (200)"` the engine does *not* emit exactly two
facts: `AMOUNT_PATTERN` also matches the two bare year tokens, so four amount
tokens survive the digit filter. -/
theorem netIncomeLine_fact_count_ne_two :
    (extract_financial_metrics_line "doc" 1 "Net Income 2021 2022 1,000 (200)").length ≠ 2 := by
  decide

/-- **C1, amended.**  On `"Net Income 2021 2022 1,000 (200)"` the engine emits
exactly four facts for metric `Net Income`, with values 2021, 2022, 1000 and
−200; since the two year tokens are fewer than the four amounts, the last
year 2022 is broadcast to every fact. -/
theorem netIncomeLine_four_facts :
    extract_financial_metrics_line "doc" 1 "Net Income 2021 2022 1,000 (200)" =
      [{ metric := "Net Income", value := 2021, currency := "Unknown", year := some 2022,
         context := "Net Income 2021 2022 1,000 (200)", source_file := "doc", page := 1 },
       { metric := "Net Income", value := 2022, currency := "Unknown", year := some 2022,
         context := "Net Income 2021 2022 1,000 (200)", source_file := "doc", page := 1 },
       { metric := "Net Income", value := 1000, currency := "Unknown", year := some 2022,
         context := "Net Income 2021 2022 1,000 (200)", source_file := "doc", page := 1 },
       { metric := "Net Income", value := -200, currency := "Unknown", year := some 2022,
         context := "Net Income 2021 2022 1,000 (200)", source_file := "doc", page := 1 }] := by
  decide

/-- **C2.**  `assign_years_to_amounts` implements exactly the six alignment
cases: empty on zero amounts; all-unset on no years; positional pairing on
equal counts; broadcast of a single year; the rightmost `amount_count` years
when years exceed amounts; and broadcast of the last year when amounts exceed
a multi-year list. -/
theorem assign_years_to_amounts_spec :
    ∀ (years : List ℕ) (amount_count : ℕ),
      (amount_count = 0 → assign_years_to_amounts years amount_count = []) ∧
      (years = [] →
        assign_years_to_amounts years amount_count = List.replicate amount_count none) ∧
      (years.length = amount_count →
        assign_years_to_amounts years amount_count = years.map some) ∧
      (∀ y, years = [y] →
        assign_years_to_amounts years amount_count = List.replicate amount_count (some y)) ∧
      (amount_count < years.length →
        assign_years_to_amounts years amount_count
          = (years.drop (years.length - amount_count)).map some) ∧
      (years.length < amount_count → 1 < years.length →
        assign_years_to_amounts years amount_count
          = List.replicate amount_count years.getLast?) := by
  intro years n
  refine ⟨?_, ?_, ?_, ?_, ?_, ?_⟩
  · intro h
    simp [assign_years_to_amounts, h]
  · intro h
    subst h
    by_cases hn : n = 0 <;> simp [assign_years_to_amounts, hn]
  · intro h
    by_cases hn : n = 0
    · subst hn
      rw [List.length_eq_zero] at h
      subst h
      simp [assign_years_to_amounts]
    · cases years with
      | nil => simp at h; omega
      | cons y ys => simp [assign_years_to_amounts, hn, h]
  · intro y h
    subst h
    by_cases hn : n = 0
    · simp [assign_years_to_amounts, hn]
    · by_cases h1 : n = 1
      · subst h1
        simp [assign_years_to_amounts, List.replicate]
      · have hne : ¬((1 : ℕ) = n) := by omega
        simp [assign_years_to_amounts, hn, hne]
  · intro h
    by_cases hn : n = 0
    · subst hn
      simp [assign_years_to_amounts, List.drop_length]
    · cases years with
      | nil => simp at h
      | cons y ys =>
        have hne : (y :: ys).length ≠ n := by omega
        have h1 : (y :: ys).length ≠ 1 := by
          simp only [List.length_cons] at h ⊢
          omega
        simp only [assign_years_to_amounts, if_neg hn, if_neg hne, if_neg h1, if_pos h]
  · intro h h2
    cases years with
    | nil => simp at h2
    | cons y ys =>
      have hn : n ≠ 0 := by omega
      have hne : (y :: ys).length ≠ n := by omega
      have h1 : (y :: ys).length ≠ 1 := by omega
      have h3 : ¬(n < (y :: ys).length) := by omega
      simp only [assign_years_to_amounts, if_neg hn, if_neg hne, if_neg h1, if_neg h3]
      rw [getLast?_cons_eq]

/-- **C2, witness.**  The six cases of `assign_years_to_amounts_spec` at the
spec's concrete instances. -/
theorem assign_years_to_amounts_spec_witness :
    assign_years_to_amounts [2020] 0 = [] ∧
    assign_years_to_amounts [] 2 = [none, none] ∧
    assign_years_to_amounts [2021, 2022] 2 = [some 2021, some 2022] ∧
    assign_years_to_amounts [2020] 3 = [some 2020, some 2020, some 2020] ∧
    assign_years_to_amounts [2019, 2020, 2021] 2 = [some 2020, some 2021] ∧
    assign_years_to_amounts [2021, 2022] 4 =
      [some 2022, some 2022, some 2022, some 2022] :=
  ⟨by rw [(assign_years_to_amounts_spec [2020] 0).1 rfl],
   by rw [(assign_years_to_amounts_spec [] 2).2.1 rfl]; decide,
   by rw [(assign_years_to_amounts_spec [2021, 2022] 2).2.2.1 rfl]; decide,
   by rw [(assign_years_to_amounts_spec [2020] 3).2.2.2.1 2020 rfl]; decide,
   by rw [(assign_years_to_amounts_spec [2019, 2020, 2021] 2).2.2.2.2.1 (by decide)]; decide,
   by rw [(assign_years_to_amounts_spec [2021, 2022] 4).2.2.2.2.2 (by decide) (by decide)]; decide⟩

/-- **C3.**  `"(1,200.00)"` normalizes to −1200; on the line `"₹ 3,450"` the
single extracted amount token normalizes to 3450 and the line's currency
resolves to INR. -/
theorem paren_negative_and_inr_amount :
    normalize_amount "(1,200.00)" = some (-1200) ∧
    lineAmountTokens "₹ 3,450" = ["₹3,450"] ∧
    normalize_amount "₹3,450" = some 3450 ∧
    detect_currency "₹ 3,450" = "INR" := by
  decide

/-- **C6.**  A line with no digit yields no facts, and every emitted fact's
value comes from an amount token that is a contiguous substring of the
context line containing at least one digit (the token's spaces are removed
before numeric parsing, as in the source). -/
theorem no_digit_no_facts :
    ∀ (s : String) (p : ℕ) (line : String),
      (line.data.all (fun c => !c.isDigit) = true →
        extract_financial_metrics_line s p line = []) ∧
      ∀ f ∈ extract_financial_metrics_line s p line,
        f.context = line ∧ ∃ t pre post, line.data = pre ++ t ++ post ∧
          t.any Char.isDigit = true ∧
          normalize_amount (String.mk (t.filter (fun c => !(c == ' ')))) = some f.value := by
  intro s p line
  constructor
  · intro hnd
    rw [List.eq_nil_iff_forall_not_mem]
    intro f hf
    obtain ⟨-, t, htf, htd, -⟩ := mem_extract_line hf
    obtain ⟨pre, post, hsplit⟩ := amountFindall_infix _ _ _ htf
    rcases List.any_eq_true.mp htd with ⟨c, hc, hcd⟩
    have hcl : c ∈ line.data := by
      rw [hsplit]
      simp only [List.mem_append]
      exact Or.inl (Or.inr hc)
    have := List.all_eq_true.mp hnd c hcl
    simp [hcd] at this
  · intro f hf
    obtain ⟨hctx, t, htf, htd, hval⟩ := mem_extract_line hf
    obtain ⟨pre, post, hsplit⟩ := amountFindall_infix _ _ _ htf
    exact ⟨hctx, t, pre, post, hsplit, htd, hval⟩

/-- **C6, witness.**  A digit-free line that matches the `Total Liabilities`
alias emits nothing; on `"Sales 1,500"` the emitted fact's value 1500 indeed
comes from a digit-bearing substring of the context. -/
theorem no_digit_no_facts_witness :
    extract_financial_metrics_line "doc" 1 "Total Liabilities rose" = [] ∧
    (({ metric := "Revenue", value := 1500, currency := "Unknown", year := none,
        context := "Sales 1,500", source_file := "doc", page := 1 } :
          FinancialMetric).context = "Sales 1,500" ∧
      ∃ t pre post, "Sales 1,500".data = pre ++ t ++ post ∧
        t.any Char.isDigit = true ∧
        normalize_amount (String.mk (t.filter (fun c => !(c == ' ')))) =
          some ({ metric := "Revenue", value := 1500, currency := "Unknown", year := none,
                  context := "Sales 1,500", source_file := "doc", page := 1 } :
                    FinancialMetric).value) :=
  ⟨(no_digit_no_facts "doc" 1 "Total Liabilities rose").1 (by decide),
   (no_digit_no_facts "doc" 1 "Sales 1,500").2 _ (by decide)⟩

/-- **C7.**  Currency resolution follows the symbol/keyword table with the
INR test first: any line with an INR indicator resolves to INR even when
other currencies' symbols or keywords occur; otherwise `$`, `€`, `£` resolve
in source order, and a line with no indicator at all resolves to Unknown. -/
theorem detect_currency_table :
    ∀ text : String,
      (inr_indicator text = true → detect_currency text = "INR") ∧
      (inr_indicator text = false → containsL "$".data text.data = true →
        detect_currency text = "USD") ∧
      (inr_indicator text = false → usd_indicator text = false →
        containsL "€".data text.data = true → detect_currency text = "EUR") ∧
      (inr_indicator text = false → usd_indicator text = false →
        eur_indicator text = false → containsL "£".data text.data = true →
        detect_currency text = "GBP") ∧
      (inr_indicator text = false → usd_indicator text = false →
        eur_indicator text = false → gbp_indicator text = false →
        detect_currency text = "Unknown") := by
  intro text
  refine ⟨?_, ?_, ?_, ?_, ?_⟩
  · intro h1
    simp [detect_currency, h1]
  · intro h1 hd
    have h2 : usd_indicator text = true := by simp [usd_indicator, hd]
    simp [detect_currency, h1, h2]
  · intro h1 h2 he
    have h3 : eur_indicator text = true := by simp [eur_indicator, he]
    simp [detect_currency, h1, h2, h3]
  · intro h1 h2 h3 hp
    have h4 : gbp_indicator text = true := by simp [gbp_indicator, hp]
    simp [detect_currency, h1, h2, h3, h4]
  · intro h1 h2 h3 h4
    simp [detect_currency, h1, h2, h3, h4]

/-- **C7, witness.**  The five cases of `detect_currency_table` at concrete
lines; the first line carries both an INR keyword and `$`/`€` yet resolves
to INR. -/
theorem detect_currency_table_witness :
    detect_currency "inr 100 with $ and €" = "INR" ∧
    detect_currency "paid $ 100" = "USD" ∧
    detect_currency "paid € 100" = "EUR" ∧
    detect_currency "paid £ 100" = "GBP" ∧
    detect_currency "paid 100" = "Unknown" :=
  ⟨(detect_currency_table "inr 100 with $ and €").1 (by decide),
   (detect_currency_table "paid $ 100").2.1 (by decide) (by decide),
   (detect_currency_table "paid € 100").2.2.1 (by decide) (by decide) (by decide),
   (detect_currency_table "paid £ 100").2.2.2.1 (by decide) (by decide) (by decide) (by decide),
   (detect_currency_table "paid 100").2.2.2.2 (by decide) (by decide) (by decide) (by decide)⟩

/-- **C4.**  `categorize` is a total function by construction; it returns the
labels of the first rule in `CATEGORY_RULES` order whose pattern set matches
the description, and `("Other", "Non-necessity")` when no rule matches.
In particular a description matching an earlier Necessity rule and a later
Non-necessity rule gets the earlier rule's labels. -/
theorem categorize_first_match :
    ∀ d : String,
      (CATEGORY_RULES.all (fun rule => ! ruleMatches rule d) = true →
        categorize d = ("Other", "Non-necessity")) ∧
      ∀ (i : ℕ) (h : i < CATEGORY_RULES.length),
        ruleMatches (CATEGORY_RULES.get ⟨i, h⟩) d = true →
        (CATEGORY_RULES.take i).all (fun rule => ! ruleMatches rule d) = true →
        categorize d =
          ((CATEGORY_RULES.get ⟨i, h⟩).category, (CATEGORY_RULES.get ⟨i, h⟩).necessity) := by
  intro d
  constructor
  · intro hall
    have hnone : CATEGORY_RULES.find? (fun rule => ruleMatches rule d) = none := by
      rw [List.find?_eq_none]
      intro x hx
      have := List.all_eq_true.mp hall x hx
      simp at this
      simp [this]
    simp [categorize, hnone]
  · intro i h hp hall
    have := find?_take_all_neg (fun rule => ruleMatches rule d) CATEGORY_RULES i h hp hall
    simp [categorize, this]

/-- **C4, witness.**  `"Uber trip to the cinema"` matches the Necessity rule
`Transport` (index 3) and also the later Non-necessity rules `Entertainment`
and `Travel`, and resolves to the earlier one; a description matching no rule
falls back to the default. -/
theorem categorize_first_match_witness :
    categorize "Uber trip to the cinema" = ("Transport", "Necessity") ∧
    categorize "Misc payment" = ("Other", "Non-necessity") :=
  ⟨by rw [(categorize_first_match "Uber trip to the cinema").2 3 (by decide)
      (by decide) (by decide)]; decide,
   by rw [(categorize_first_match "Misc payment").1 (by decide)]⟩

/-- **C5 (code bug evaluation).**  On headers
`["Txn Date", "Narration", "Debit", "Credit"]` the reconciliation succeeds,
but because `"debit"` is also an amount alias the `Debit` column itself is
taken verbatim as `Amount`: the row (Debit = 100, Credit = 30) yields
Amount 100, not Credit − Debit = −70. -/
theorem debitCredit_headers_amount_is_debit_column :
    normalize_columns ["Txn Date", "Narration", "Debit", "Credit"]
        [[Cell.date 1, Cell.str "POS purchase", Cell.num 100, Cell.num 30]]
      = Except.ok [{ date := 1, description := "POS purchase", amount := 100 }] ∧
    ((30 : ℚ) - 100 = -70) ∧ ((100 : ℚ) ≠ -70) := by
  refine ⟨by decide, by norm_num, by norm_num⟩

/-- **C9.**  `normalize_columns` fails exactly when the date or description
column cannot be resolved, or when neither a direct amount column nor the
credit/debit pair can be resolved; whenever these columns resolve it returns
a normalized table. -/
theorem normalize_columns_error_iff :
    ∀ (columns : List String) (rows : List (List Cell)),
      isOkResult (normalize_columns columns rows) = false ↔
        (find_column columns DEFAULT_COLUMN_ALIASES_date = none ∨
         find_column columns DEFAULT_COLUMN_ALIASES_description = none ∨
         (find_column columns DEFAULT_COLUMN_ALIASES_amount = none ∧
          (find_column columns DEFAULT_COLUMN_ALIASES_credit = none ∨
           find_column columns DEFAULT_COLUMN_ALIASES_debit = none))) := by
  intro columns rows
  unfold normalize_columns
  cases hd : find_column columns DEFAULT_COLUMN_ALIASES_date <;>
    cases hs : find_column columns DEFAULT_COLUMN_ALIASES_description <;>
      cases ha : find_column columns DEFAULT_COLUMN_ALIASES_amount <;>
        cases hc : find_column columns DEFAULT_COLUMN_ALIASES_credit <;>
          cases hb : find_column columns DEFAULT_COLUMN_ALIASES_debit <;>
            simp [isOkResult]

/-- **C9, witness.**  Headers lacking any date alias fail; the classic
`Date`/`Description`/`Amount` header set succeeds. -/
theorem normalize_columns_error_iff_witness :
    isOkResult (normalize_columns ["Narration", "Amount"] []) = false ∧
    ¬ isOkResult (normalize_columns ["Date", "Description", "Amount"] []) = false :=
  ⟨(normalize_columns_error_iff ["Narration", "Amount"] []).mpr (by decide),
   fun h => absurd ((normalize_columns_error_iff ["Date", "Description", "Amount"] []).mp h)
     (by decide)⟩

lemma find_column_debit_to_amount :
    ∀ columns : List String,
      find_column columns DEFAULT_COLUMN_ALIASES_debit ≠ none →
      find_column columns DEFAULT_COLUMN_ALIASES_amount ≠ none := by
  intro columns hne
  unfold find_column at hne ⊢
  rw [Ne, List.findIdx?_eq_none_iff] at hne ⊢
  push_neg at hne ⊢
  obtain ⟨x, hx, hpx⟩ := hne
  refine ⟨x, hx, ?_⟩
  rw [Bool.ne_false_iff] at hpx ⊢
  have e1 : DEFAULT_COLUMN_ALIASES_debit.map normHeader = ["debit", "withdrawal"] := by decide
  have e2 : DEFAULT_COLUMN_ALIASES_amount.map normHeader
      = ["amount", "debit", "withdrawal", "transaction amount", "value"] := by decide
  rw [e1] at hpx
  rw [e2]
  have hmem : normHeader x ∈ (["debit", "withdrawal"] : List String) := List.elem_iff.mp hpx
  refine List.elem_iff.mpr ?_
  simp only [List.mem_cons, List.not_mem_nil, or_false] at hmem ⊢
  tauto

/-- **C10.**  Every debit alias is also an amount alias, so a resolvable
debit column forces a resolvable amount column; consequently the
`credit − debit` synthesis branch of `normalize_columns` is unreachable and
the function coincides with the variant whose synthesis branch is removed. -/
theorem credit_debit_synthesis_unreachable :
    ∀ columns : List String,
      (find_column columns DEFAULT_COLUMN_ALIASES_debit ≠ none →
        find_column columns DEFAULT_COLUMN_ALIASES_amount ≠ none) ∧
      ∀ rows : List (List Cell),
        normalize_columns columns rows = normalize_columns_synth_disabled columns rows := by
  intro columns
  refine ⟨find_column_debit_to_amount columns, ?_⟩
  intro rows
  unfold normalize_columns normalize_columns_synth_disabled
  cases hd : find_column columns DEFAULT_COLUMN_ALIASES_date <;>
    cases hs : find_column columns DEFAULT_COLUMN_ALIASES_description <;>
      cases ha : find_column columns DEFAULT_COLUMN_ALIASES_amount
  · rfl
  · rfl
  · rfl
  · rfl
  · rfl
  · rfl
  · have hdeb : find_column columns DEFAULT_COLUMN_ALIASES_debit = none := by
      by_contra hne
      exact absurd ha (find_column_debit_to_amount columns hne)
    rw [hdeb]
    cases hc : find_column columns DEFAULT_COLUMN_ALIASES_credit <;> rfl
  · rfl

/-- **C10, witness.**  A lone `Withdrawal` header resolves the debit column,
hence also the amount column. -/
theorem credit_debit_synthesis_unreachable_witness :
    find_column ["Withdrawal"] DEFAULT_COLUMN_ALIASES_amount ≠ none :=
  (credit_debit_synthesis_unreachable ["Withdrawal"]).1 (by decide)

lemma group_sorted_spec {K : Type} [DecidableEq K] (key : CategorizedTransaction → K)
    (ex : List CategorizedTransaction) :
    (∀ e ∈ List.insertionSort bySpendDesc (group_spend key ex),
        e.2 = ((ex.filter (fun t => decide (key t = e.1))).map (fun t => |t.amount|)).sum) ∧
    ((List.insertionSort bySpendDesc (group_spend key ex)).map Prod.fst).Nodup ∧
    (∀ k, k ∈ (List.insertionSort bySpendDesc (group_spend key ex)).map Prod.fst ↔
        ∃ t ∈ ex, key t = k) ∧
    List.Sorted bySpendDesc (List.insertionSort bySpendDesc (group_spend key ex)) := by
  have hperm : List.Perm ((List.insertionSort bySpendDesc (group_spend key ex)).map Prod.fst)
      ((group_spend key ex).map Prod.fst) := (List.perm_insertionSort _ _).map _
  have hid : (Prod.fst ∘ fun k => (k,
      ((ex.filter (fun t => decide (key t = k))).map (fun t => |t.amount|)).sum)) = id := rfl
  refine ⟨?_, ?_, ?_, List.sorted_insertionSort _ _⟩
  · intro e he
    rw [List.mem_insertionSort] at he
    unfold group_spend at he
    rw [List.mem_map] at he
    obtain ⟨k, hk, he⟩ := he
    subst he
    rfl
  · rw [hperm.nodup_iff]
    unfold group_spend
    rw [List.map_map, hid, List.map_id]
    exact List.nodup_dedup _
  · intro k
    rw [hperm.mem_iff]
    unfold group_spend
    rw [List.map_map, hid, List.map_id, List.mem_dedup, List.mem_map]

/-- **C8.**  `analyze_statement`: the detailed table is a permutation of the
input sorted by date ascending with category/necessity computed per row by
`categorize`; each summary contains one entry per distinct key among the
negative-amount rows, whose total is the sum of `|amount|` over the matching
negative rows, and both summaries are sorted by total spend descending. -/
theorem analyze_statement_contract :
    ∀ df : List NormalizedTransaction,
      ((analyze_statement df).1.map
          (fun t => NormalizedTransaction.mk t.date t.description t.amount)).Perm df ∧
      List.Sorted (fun a b : CategorizedTransaction => a.date ≤ b.date)
        (analyze_statement df).1 ∧
      (∀ t ∈ (analyze_statement df).1,
        (t.category, t.necessity) = categorize t.description) ∧
      (∀ e ∈ (analyze_statement df).2.1,
        e.2 = (((analyze_statement df).1.filter
            (fun t => decide ((t.category, t.necessity) = e.1) && decide (t.amount < 0))).map
              (fun t => |t.amount|)).sum) ∧
      ((analyze_statement df).2.1.map Prod.fst).Nodup ∧
      (∀ k, k ∈ (analyze_statement df).2.1.map Prod.fst ↔
        ∃ t ∈ (analyze_statement df).1, t.amount < 0 ∧ (t.category, t.necessity) = k) ∧
      List.Sorted bySpendDesc (analyze_statement df).2.1 ∧
      (∀ e ∈ (analyze_statement df).2.2,
        e.2 = (((analyze_statement df).1.filter
            (fun t => decide (t.necessity = e.1) && decide (t.amount < 0))).map
              (fun t => |t.amount|)).sum) ∧
      ((analyze_statement df).2.2.map Prod.fst).Nodup ∧
      (∀ k, k ∈ (analyze_statement df).2.2.map Prod.fst ↔
        ∃ t ∈ (analyze_statement df).1, t.amount < 0 ∧ t.necessity = k) ∧
      List.Sorted bySpendDesc (analyze_statement df).2.2 := by
  intro df
  have hgc := group_sorted_spec (fun t => (t.category, t.necessity)) (statement_expenses df)
  have hgn := group_sorted_spec (fun t => t.necessity) (statement_expenses df)
  refine ⟨?_, ?_, ?_, ?_, hgc.2.1, ?_, hgc.2.2.2, ?_, hgn.2.1, ?_, hgn.2.2.2⟩
  · show ((detailed_transactions df).map _).Perm df
    unfold detailed_transactions
    rw [List.map_map]
    have hid : ((fun t : CategorizedTransaction =>
        NormalizedTransaction.mk t.date t.description t.amount) ∘
          (fun t : NormalizedTransaction =>
            (⟨t.date, t.description, t.amount, (categorize t.description).1,
              (categorize t.description).2⟩ : CategorizedTransaction))) = id := rfl
    rw [hid, List.map_id]
    exact List.perm_insertionSort _ _
  · show List.Sorted _ (detailed_transactions df)
    unfold detailed_transactions
    exact List.Pairwise.map _ (fun a b h => h) (List.sorted_insertionSort byDate df)
  · intro t ht
    unfold analyze_statement detailed_transactions at ht
    rw [List.mem_map] at ht
    obtain ⟨t0, -, rfl⟩ := ht
    rfl
  · intro e he
    have h4 := hgc.1 e he
    rw [h4]
    unfold statement_expenses
    rw [List.filter_filter]
    rfl
  · intro k
    have h6 := hgc.2.2.1 k
    constructor
    · intro hk
      obtain ⟨t, ht, hkk⟩ := h6.mp hk
      unfold statement_expenses at ht
      rw [List.mem_filter] at ht
      exact ⟨t, ht.1, of_decide_eq_true ht.2, hkk⟩
    · rintro ⟨t, ht, hneg, hk⟩
      exact h6.mpr ⟨t, List.mem_filter.mpr ⟨ht, decide_eq_true hneg⟩, hk⟩
  · intro e he
    have h8 := hgn.1 e he
    rw [h8]
    unfold statement_expenses
    rw [List.filter_filter]
    rfl
  · intro k
    have h10 := hgn.2.2.1 k
    constructor
    · intro hk
      obtain ⟨t, ht, hkk⟩ := h10.mp hk
      unfold statement_expenses at ht
      rw [List.mem_filter] at ht
      exact ⟨t, ht.1, of_decide_eq_true ht.2, hkk⟩
    · rintro ⟨t, ht, hneg, hk⟩
      exact h10.mpr ⟨t, List.mem_filter.mpr ⟨ht, decide_eq_true hneg⟩, hk⟩

unseal Rat.add in
/-- **C8, witness.**  On a three-row statement the detailed table is
date-sorted, the `(Transport, Necessity)` group totals 50 (the only negative
Transport row has amount −50), and that key indeed comes from a
negative-amount row. -/
theorem analyze_statement_contract_witness :
    List.Sorted (fun a b : CategorizedTransaction => a.date ≤ b.date)
      (analyze_statement [⟨2, "Uber ride", -50⟩, ⟨1, "Salary credit", 1000⟩,
        ⟨3, "Netflix subscription", -10⟩]).1 ∧
    ((("Transport", "Necessity"), (50 : ℚ)) :
        (String × String) × ℚ).2 =
      (((analyze_statement [⟨2, "Uber ride", -50⟩, ⟨1, "Salary credit", 1000⟩,
          ⟨3, "Netflix subscription", -10⟩]).1.filter
        (fun t => decide ((t.category, t.necessity) =
            ((("Transport", "Necessity"), (50 : ℚ)) : (String × String) × ℚ).1)
          && decide (t.amount < 0))).map (fun t => |t.amount|)).sum ∧
    ∃ t ∈ (analyze_statement [⟨2, "Uber ride", -50⟩, ⟨1, "Salary credit", 1000⟩,
        ⟨3, "Netflix subscription", -10⟩]).1,
      t.amount < 0 ∧ (t.category, t.necessity) = ("Transport", "Necessity") :=
  ⟨(analyze_statement_contract _).2.1,
   (analyze_statement_contract _).2.2.2.1 _ (by decide),
   ((analyze_statement_contract _).2.2.2.2.2.1 ("Transport", "Necessity")).mp (by decide)⟩

end Starter
